import Mathlib

/-!
Shallow embedding of
`src/job_orchestrator/src/birdeye_trending_orchestrator.rs`
(the BirdEye trending discovery orchestrator).

External collaborators (BirdEye client, DexScreener client, Redis queue)
are modelled as explicit oracle inputs: each fetch or push becomes a value
or function of type `Except Err _` supplied to the embedded function.
`f64` fields are modelled as `ℤ` (a linearly ordered numeric domain, no NaN), `usize`/`u32` as `ℕ`, and the
stop-flag reads at each checkpoint are modelled by boolean schedules
`Nat → Bool` (the value observed at the k-th checkpoint of a loop).
-/

namespace BirdEyeOrch

/-- Errors from collaborators; the orchestrator only propagates or logs them. -/
abbrev Err := String

/-- Trending token record (`dex_client::TrendingToken`), fields as used and
constructed in the orchestrator source (lines 470-486, 741-757). -/
structure TrendingToken where
  address : String
  symbol : String
  name : String
  decimals : Option Nat
  price : ℤ
  price_change_24h : Option ℤ
  volume_24h : Option ℤ
  volume_change_24h : Option ℤ
  liquidity : Option ℤ
  fdv : Option ℤ
  marketcap : Option ℤ
  rank : Option Nat
  logo_uri : Option String
  txns_24h : Option Nat
  last_trade_unix_time : Option Int
  deriving DecidableEq, Repr

/-- Top trader record (`dex_client::TopTrader`). The orchestrator reads
`owner`, `volume`, `trade`; the `win_rate` and `last_trade_age_hours`
fields are the inputs of the trader quality filter described in the spec
(the filter itself lives in `dex_client`, outside `src/`). -/
structure TopTrader where
  owner : String
  volume : ℤ
  trade : Nat
  win_rate : ℤ
  last_trade_age_hours : ℤ
  deriving DecidableEq, Repr

/-- Gainer record (`dex_client::GainerLoser`); the orchestrator reads
`address`, `volume`, `trade_count` (lines 384-389). -/
structure GainerLoser where
  address : String
  volume : ℤ
  trade_count : Nat
  deriving DecidableEq, Repr

/-- Boosted token record (`dex_client::DexScreenerBoostedToken`); the
orchestrator reads `token_address`, `chain_id`, `description`. -/
structure DexScreenerBoostedToken where
  token_address : String
  chain_id : String
  description : Option String
  deriving DecidableEq, Repr

/-- New listing record (`dex_client::NewListingToken`); fields as read at
lines 698-700 and 741-757. -/
structure NewListingToken where
  address : String
  symbol : String
  name : String
  decimals : Nat
  liquidity : ℤ
  logo_uri : Option String
  source : String
  deriving DecidableEq, Repr

/-- Queue entry (`persistence_layer::DiscoveredWalletToken`), constructed at
lines 383-391 and 638-646; `discovered_at` (a UTC timestamp in the source)
is a `Nat` supplied by the caller. -/
structure DiscoveredWalletToken where
  wallet_address : String
  chain : String
  token_address : String
  token_symbol : String
  trader_volume_usd : ℤ
  trader_trades : Nat
  discovered_at : Nat
  deriving DecidableEq, Repr

/-- The configuration fields of `config_manager::SystemConfig` the
orchestrator reads, flattened (multichain, birdeye, dexscreener and
trader_filter sections). -/
structure SystemConfig where
  enabled_chains : List String
  default_chain : String
  max_trending_tokens : Nat
  max_traders_per_token : Nat
  new_listing_enabled : Bool
  max_boosted_tokens : Nat
  min_capital_deployed_sol : ℤ
  min_total_trades : Nat
  min_win_rate : ℤ
  deriving DecidableEq, Repr

/-! ### Descending volume sort (lines 546 and 576)

The source sorts with the comparator
`b.volume_24h.partial_cmp(&a.volume_24h).unwrap_or(Equal)` using Rust's
stable `sort_by`. On `Option<f64>` without NaN this is the descending
order on `Option ℤ` with `none` below every `some`. We embed the stable
sort as insertion sort with that comparator. -/

/-- Rust `Option<f64>` order, `none < some x`, `some a ≤ some b ↔ a ≤ b`. -/
def optVolLe : Option ℤ → Option ℤ → Bool
  | none, _ => true
  | some _, none => false
  | some a, some b => a ≤ b

/-- Strict version of `optVolLe`. -/
def optVolLt : Option ℤ → Option ℤ → Bool
  | none, none => false
  | none, some _ => true
  | some _, none => false
  | some a, some b => a < b

/-- Insert a token into a descending-by-volume list, after every element of
strictly greater volume: the placement a stable descending sort gives. -/
def insertByVolDesc (t : TrendingToken) : List TrendingToken → List TrendingToken
  | [] => [t]
  | u :: us =>
    if optVolLt t.volume_24h u.volume_24h then u :: insertByVolDesc t us
    else t :: u :: us

/-- Stable descending sort by `volume_24h`: the effect of
`tokens.sort_by(|a, b| b.volume_24h.partial_cmp(&a.volume_24h).unwrap_or(Equal))`. -/
def sortByVolDesc : List TrendingToken → List TrendingToken
  | [] => []
  | t :: ts => insertByVolDesc t (sortByVolDesc ts)

/-- A list is sorted descending by volume when each element's volume is at
least every later element's volume. -/
def VolSortedDesc (l : List TrendingToken) : Prop :=
  l.Pairwise (fun a b => optVolLe b.volume_24h a.volume_24h = true)

/-- `get_trending_tokens_for_chain` (lines 538-587): primary paginated fetch,
sort, optional cap (`max_trending_tokens`, 0 = unlimited); on primary
failure a fallback fetch, sort, no cap; if both fail, the primary error is
returned (line 582). The two collaborator calls are the oracles `fetch1`
and `fetch2`. -/
def get_trending_tokens_for_chain (cfg : SystemConfig)
    (fetch1 fetch2 : Except Err (List TrendingToken)) :
    Except Err (List TrendingToken) :=
  match fetch1 with
  | .ok tokens =>
    let sorted := sortByVolDesc tokens
    if cfg.max_trending_tokens > 0 ∧ sorted.length > cfg.max_trending_tokens then
      .ok (sorted.take cfg.max_trending_tokens)
    else
      .ok sorted
  | .error e =>
    match fetch2 with
    | .ok fallback_tokens => .ok (sortByVolDesc fallback_tokens)
    | .error _ => .error e

/-! ### Trader fetch, filter, and queue publishing -/

/-- Modelled from the spec: `dex_client::BirdEyeClient::filter_top_traders`
is not under `src/` (only its call site at lines 598-604 is). Spec section
4.4: a trader passes iff volume ≥ min_volume_usd AND trade_count ≥
min_trade_count AND (win_rate filter absent OR win_rate ≥ threshold) AND
(recency filter absent OR last-trade-age ≤ recency_hours); the filter is
stable and preserves input order. -/
def filter_top_traders (traders : List TopTrader) (minVolumeUsd : ℤ)
    (minTradeCount : Nat) (minWinRate : Option ℤ) (recencyHours : Option ℤ) :
    List TopTrader :=
  traders.filter (fun t =>
    decide (minVolumeUsd ≤ t.volume) && decide (minTradeCount ≤ t.trade) &&
    (match minWinRate with
     | none => true
     | some w => decide (w ≤ t.win_rate)) &&
    (match recencyHours with
     | none => true
     | some r => decide (t.last_trade_age_hours ≤ r)))

/-- `get_top_traders_for_token` (lines 590-629): raw paginated fetch (oracle
`rawTraders`), quality filter with threshold
`min_capital_deployed_sol * 230.0` (SOL to USD conversion, line 600),
`min_total_trades`, `Some(min_win_rate)`, `Some(24)` hours, then truncation
to `max_traders_per_token`. -/
def get_top_traders_for_token (cfg : SystemConfig)
    (rawTraders : String → String → Except Err (List TopTrader))
    (token_address chain : String) : Except Err (List TopTrader) :=
  match rawTraders token_address chain with
  | .ok traders =>
    let quality_traders := filter_top_traders traders
      (cfg.min_capital_deployed_sol * 230) cfg.min_total_trades
      (some cfg.min_win_rate) (some 24)
    if quality_traders.length > cfg.max_traders_per_token then
      .ok (quality_traders.take cfg.max_traders_per_token)
    else
      .ok quality_traders
  | .error e => .error e

/-- The wallet-token batch built at lines 637-647, one
`DiscoveredWalletToken` per trader, in input order. -/
def mkWalletTokenPairs (traders : List TopTrader) (token : TrendingToken)
    (chain : String) (now : Nat) : List DiscoveredWalletToken :=
  traders.map (fun trader =>
    { wallet_address := trader.owner
      chain := chain
      token_address := token.address
      token_symbol := token.symbol
      trader_volume_usd := trader.volume
      trader_trades := trader.trade
      discovered_at := now })

/-- The gainer batch built at lines 382-392: the gainer record is the
wallet; token address is the generic `"ALL_TOKENS"`, symbol tags the record
as a gainer for the timeframe. -/
def mkGainerPairs (gainers : List GainerLoser) (timeframe chain : String)
    (now : Nat) : List DiscoveredWalletToken :=
  gainers.map (fun gainer =>
    { wallet_address := gainer.address
      chain := chain
      token_address := "ALL_TOKENS"
      token_symbol := "GAINER_" ++ timeframe.toUpper
      trader_volume_usd := gainer.volume
      trader_trades := gainer.trade_count
      discovered_at := now })

/-- The duplicate count logged at lines 401 and 655:
`wallet_token_pairs.len() - pushed_count`. -/
def dedupSkippedCount (batchLen pushedCount : Nat) : Nat :=
  batchLen - pushedCount

/-- The Redis collaborator: `none` when the client is not configured;
otherwise `push_discovered_wallet_token_pairs_deduplicated`, returning the
newly-queued count or an error. -/
abbrev PushOracle := Option (List DiscoveredWalletToken → Except Err Nat)

/-- `push_wallet_token_pairs_to_queue` (lines 632-674): empty batch returns
0; missing Redis client logs and returns 0; otherwise the dedup push's
count is returned and a push error is propagated to the caller
(line 667). -/
def push_wallet_token_pairs_to_queue (traders : List TopTrader)
    (token : TrendingToken) (chain : String) (push : PushOracle) (now : Nat) :
    Except Err Nat :=
  if traders.isEmpty then .ok 0
  else
    match push with
    | some pushFn =>
      match pushFn (mkWalletTokenPairs traders token chain now) with
      | .ok pushed_count => .ok pushed_count
      | .error e => .error e
    | none => .ok 0

/-- `push_gainers_to_queue` (lines 375-420): same structure as
`push_wallet_token_pairs_to_queue` over the gainer batch. -/
def push_gainers_to_queue (gainers : List GainerLoser)
    (timeframe chain : String) (push : PushOracle) (now : Nat) :
    Except Err Nat :=
  if gainers.isEmpty then .ok 0
  else
    match push with
    | some pushFn =>
      match pushFn (mkGainerPairs gainers timeframe chain now) with
      | .ok pushed_count => .ok pushed_count
      | .error e => .error e
    | none => .ok 0

/-! ### The per-chain discovery pipeline -/

/-- The synthetic trending token built for a boosted token (lines 470-486). -/
def syntheticBoostedToken (bt : DexScreenerBoostedToken) (src : String) :
    TrendingToken :=
  { address := bt.token_address
    symbol := "BOOSTED_" ++ src.toUpper
    name := bt.description.getD "Boosted Token"
    decimals := none
    price := 0
    price_change_24h := none
    volume_24h := some 1000
    volume_change_24h := none
    liquidity := none
    fdv := none
    marketcap := none
    rank := none
    logo_uri := none
    txns_24h := none
    last_trade_unix_time := none }

/-- The synthetic trending token built for a new listing (lines 741-757). -/
def syntheticNewListingToken (t : NewListingToken) : TrendingToken :=
  { address := t.address
    symbol := t.symbol
    name := t.name
    decimals := some t.decimals
    price := 0
    price_change_24h := none
    volume_24h := some t.liquidity
    volume_change_24h := none
    liquidity := some t.liquidity
    fdv := none
    marketcap := none
    rank := none
    logo_uri := t.logo_uri
    txns_24h := none
    last_trade_unix_time := none }

/-- The boosted list actually iterated by `process_boosted_tokens`
(lines 431-440): filter to enabled chains, then truncate to
`max_boosted_tokens`. Each call (one for `"latest"`, one for `"top"`)
applies this to its own list. -/
def boostedProcessedList (cfg : SystemConfig)
    (boosted_tokens : List DexScreenerBoostedToken) :
    List DexScreenerBoostedToken :=
  let filtered := boosted_tokens.filter
    (fun token => cfg.enabled_chains.contains token.chain_id)
  if filtered.length > cfg.max_boosted_tokens then
    filtered.take cfg.max_boosted_tokens
  else filtered

/-- All collaborator results and stop-flag observations one call of
`execute_discovery_cycle_for_chain` consumes. Each `stop*` schedule gives
the is_running value read at the k-th checkpoint of the corresponding
loop: `true` means a stop was requested by then (flag read as false). -/
structure ChainOracles where
  fetch1 : Except Err (List TrendingToken)
  fetch2 : Except Err (List TrendingToken)
  rawTraders : String → String → Except Err (List TopTrader)
  push : PushOracle
  gainers : Except Err (List GainerLoser)
  boosted : Option (Except Err (List DexScreenerBoostedToken × List DexScreenerBoostedToken))
  newListings : Except Err (List NewListingToken)
  stopTrend : Nat → Bool
  stopTrendSleep : Nat → Bool
  stopBoostLatest : Nat → Bool
  stopBoostLatestSleep : Nat → Bool
  stopBoostTop : Nat → Bool
  stopBoostTopSleep : Nat → Bool
  stopNewListing : Nat → Bool
  stopNewListingSleep : Nat → Bool
  now : Nat

/-- The per-token loop of step 1 (lines 191-251): for each trending token,
stop-check (break), trader fetch → filter → publish with failures logged
and skipped, then the interruptible pacing sleep between tokens whose
stop-check returns from the whole chain function with the count so far.
Result: (count, early-return flag). -/
def processTrendingTokens (cfg : SystemConfig) (chain : String)
    (rawTraders : String → String → Except Err (List TopTrader))
    (push : PushOracle) (now : Nat) (stopT stopTSleep : Nat → Bool) :
    List TrendingToken → Nat → Nat → Nat × Bool
  | [], _, acc => (acc, false)
  | token :: rest, i, acc =>
    if stopT i then (acc, false)
    else
      let acc' :=
        match get_top_traders_for_token cfg rawTraders token.address chain with
        | .ok top_traders =>
          if top_traders.isEmpty then acc
          else
            match push_wallet_token_pairs_to_queue top_traders token chain push now with
            | .ok pushed_count => acc + pushed_count
            | .error _ => acc
        | .error _ => acc
      if rest.isEmpty then (acc', false)
      else if stopTSleep i then (acc', true)
      else processTrendingTokens cfg chain rawTraders push now stopT stopTSleep rest (i + 1) acc'

/-- The per-token loop of `process_boosted_tokens` (lines 447-530): same
shape as the trending loop, but the chain is the boosted token's own
`chain_id`, the token pushed is the synthetic one, and the sleep
stop-check returns from `process_boosted_tokens` itself. -/
def processBoostedLoop (cfg : SystemConfig)
    (rawTraders : String → String → Except Err (List TopTrader))
    (push : PushOracle) (now : Nat) (src : String)
    (stopB stopBSleep : Nat → Bool) :
    List DexScreenerBoostedToken → Nat → Nat → Nat
  | [], _, acc => acc
  | boosted_token :: rest, i, acc =>
    if stopB i then acc
    else
      let acc' :=
        match get_top_traders_for_token cfg rawTraders
            boosted_token.token_address boosted_token.chain_id with
        | .ok top_traders =>
          if top_traders.isEmpty then acc
          else
            match push_wallet_token_pairs_to_queue top_traders
                (syntheticBoostedToken boosted_token src)
                boosted_token.chain_id push now with
            | .ok pushed_count => acc + pushed_count
            | .error _ => acc
        | .error _ => acc
      if rest.isEmpty then acc'
      else if stopBSleep i then acc'
      else processBoostedLoop cfg rawTraders push now src stopB stopBSleep rest (i + 1) acc'

/-- `process_boosted_tokens` (lines 423-535): early 0 on empty input, then
filter-and-cap, then the per-token loop. All internal failures are caught:
the function only ever returns `.ok`. -/
def process_boosted_tokens (cfg : SystemConfig)
    (rawTraders : String → String → Except Err (List TopTrader))
    (push : PushOracle) (now : Nat)
    (boosted_tokens : List DexScreenerBoostedToken) (src : String)
    (stopB stopBSleep : Nat → Bool) : Except Err Nat :=
  if boosted_tokens.isEmpty then .ok 0
  else
    .ok (processBoostedLoop cfg rawTraders push now src stopB stopBSleep
      (boostedProcessedList cfg boosted_tokens) 0 0)

/-- The per-token loop of `process_new_listing_tokens` (lines 709-802):
the trader lookup and the published pairs use the configured
`default_chain` (line 733), not the chain being iterated. -/
def processNewListingLoop (cfg : SystemConfig)
    (rawTraders : String → String → Except Err (List TopTrader))
    (push : PushOracle) (now : Nat) (stopN stopNSleep : Nat → Bool) :
    List NewListingToken → Nat → Nat → Nat
  | [], _, acc => acc
  | token :: rest, i, acc =>
    if stopN i then acc
    else
      let acc' :=
        match get_top_traders_for_token cfg rawTraders token.address
            cfg.default_chain with
        | .ok top_traders =>
          if top_traders.isEmpty then acc
          else
            match push_wallet_token_pairs_to_queue top_traders
                (syntheticNewListingToken token) cfg.default_chain push now with
            | .ok pushed_count => acc + pushed_count
            | .error _ => acc
        | .error _ => acc
      if rest.isEmpty then acc'
      else if stopNSleep i then acc'
      else processNewListingLoop cfg rawTraders push now stopN stopNSleep rest (i + 1) acc'

/-- `process_new_listing_tokens` (lines 709-802): early 0 on empty input,
then the loop; only ever returns `.ok`. -/
def process_new_listing_tokens (cfg : SystemConfig)
    (rawTraders : String → String → Except Err (List TopTrader))
    (push : PushOracle) (now : Nat) (stopN stopNSleep : Nat → Bool)
    (new_listing_tokens : List NewListingToken) : Except Err Nat :=
  if new_listing_tokens.isEmpty then .ok 0
  else .ok (processNewListingLoop cfg rawTraders push now stopN stopNSleep
    new_listing_tokens 0 0)

/-- `execute_discovery_cycle_for_chain` (lines 171-356). Step 1: trending
fetch, whose error propagates (`?` at line 175) and whose empty result
returns 0 immediately (line 178); then the per-token loop, whose
sleep-stop returns early with the count so far (line 246). Step 2 (labelled
step 3 in comments): gainers, failures logged. Step 3: boosted latest and
top, each processed independently when the DexScreener client is enabled,
the whole-step fetch failure logged. Step 4: new listings when enabled,
failures logged. Returns the summed count. -/
def execute_discovery_cycle_for_chain (cfg : SystemConfig) (o : ChainOracles)
    (chain : String) : Except Err Nat :=
  match get_trending_tokens_for_chain cfg o.fetch1 o.fetch2 with
  | .error e => .error e
  | .ok trending_tokens =>
    if trending_tokens.isEmpty then .ok 0
    else
      match processTrendingTokens cfg chain o.rawTraders o.push o.now
          o.stopTrend o.stopTrendSleep trending_tokens 0 0 with
      | (acc, true) => .ok acc
      | (c1, false) =>
        let c2 :=
          match o.gainers with
          | .ok gainers =>
            if gainers.isEmpty then 0
            else
              match push_gainers_to_queue gainers "ALL_TIMEFRAMES" chain o.push o.now with
              | .ok pushed_count => pushed_count
              | .error _ => 0
          | .error _ => 0
        let c3 :=
          match o.boosted with
          | some (.ok (latest_tokens, top_tokens)) =>
            (if latest_tokens.isEmpty then 0
             else
               match process_boosted_tokens cfg o.rawTraders o.push o.now
                   latest_tokens "latest" o.stopBoostLatest o.stopBoostLatestSleep with
               | .ok pushed_count => pushed_count
               | .error _ => 0) +
            (if top_tokens.isEmpty then 0
             else
               match process_boosted_tokens cfg o.rawTraders o.push o.now
                   top_tokens "top" o.stopBoostTop o.stopBoostTopSleep with
               | .ok pushed_count => pushed_count
               | .error _ => 0)
          | some (.error _) => 0
          | none => 0
        let c4 :=
          if cfg.new_listing_enabled then
            match o.newListings with
            | .ok new_listing_tokens =>
              if new_listing_tokens.isEmpty then 0
              else
                match process_new_listing_tokens cfg o.rawTraders o.push o.now
                    o.stopNewListing o.stopNewListingSleep new_listing_tokens with
                | .ok pushed_count => pushed_count
                | .error _ => 0
            | .error _ => 0
          else 0
        .ok (c1 + c2 + c3 + c4)

/-! ### The multi-chain cycle and the running flag (lines 130-168)

`execute_discovery_cycle` sets `is_running := true` at entry, iterates the
enabled chains summing counts, propagates a chain error with `?`
(line 146) — which skips the flag reset at lines 162-165 — checks the stop
flag between chains, and resets the flag to false after the loop. We model
the flag value observed at the k-th between-chain checkpoint as
`!(stop k)` (an external `stop()` by then sets it false) and return the
final flag value alongside the result. -/

/-- The chain iteration of `execute_discovery_cycle` (lines 143-156), with
the flag value at return as second component. -/
def cycleChainsLoop (cfg : SystemConfig) (oraclesFor : String → ChainOracles)
    (stop : Nat → Bool) : List String → Nat → Nat → Except Err Nat × Bool
  | [], _, acc => (.ok acc, false)
  | chain :: rest, k, acc =>
    match execute_discovery_cycle_for_chain cfg (oraclesFor chain) chain with
    | .error e => (.error e, !(stop k))
    | .ok n =>
      if stop k then (.ok (acc + n), false)
      else cycleChainsLoop cfg oraclesFor stop rest (k + 1) (acc + n)

/-- `execute_discovery_cycle` (lines 130-168): flag set true at entry, then
the chain loop; second component is the `is_running` value when the call
returns. -/
def execute_discovery_cycle (cfg : SystemConfig)
    (oraclesFor : String → ChainOracles) (stop : Nat → Bool) :
    Except Err Nat × Bool :=
  cycleChainsLoop cfg oraclesFor stop cfg.enabled_chains 0 0

/-! ### The stream of batches handed to the dedup queue

Ghost instruments for the queue-invariant claim: each definition mirrors
the control flow of the loop it is named after and collects, in order, the
batches that loop hands to
`push_discovered_wallet_token_pairs_deduplicated`. A batch is handed over
exactly when the trader list is non-empty and the Redis client is
configured (see `push_wallet_token_pairs_to_queue`); push errors do not
change the control flow, so the stream does not depend on the push
oracle's answers. -/

/-- Batches handed to the queue by the step-1 trending loop. -/
def trendingBatches (cfg : SystemConfig) (chain : String)
    (rawTraders : String → String → Except Err (List TopTrader))
    (pushSome : Bool) (now : Nat) (stopT stopTSleep : Nat → Bool) :
    List TrendingToken → Nat → List (List DiscoveredWalletToken)
  | [], _ => []
  | token :: rest, i =>
    if stopT i then []
    else
      let bs :=
        match get_top_traders_for_token cfg rawTraders token.address chain with
        | .ok top_traders =>
          if top_traders.isEmpty then []
          else if pushSome then [mkWalletTokenPairs top_traders token chain now]
          else []
        | .error _ => []
      bs ++
        (if rest.isEmpty then []
         else if stopTSleep i then []
         else trendingBatches cfg chain rawTraders pushSome now stopT stopTSleep rest (i + 1))

/-- Batches handed to the queue by one `process_boosted_tokens` loop, over
the already filtered-and-capped list. -/
def boostedBatches (cfg : SystemConfig)
    (rawTraders : String → String → Except Err (List TopTrader))
    (pushSome : Bool) (now : Nat) (src : String) (stopB stopBSleep : Nat → Bool) :
    List DexScreenerBoostedToken → Nat → List (List DiscoveredWalletToken)
  | [], _ => []
  | boosted_token :: rest, i =>
    if stopB i then []
    else
      let bs :=
        match get_top_traders_for_token cfg rawTraders
            boosted_token.token_address boosted_token.chain_id with
        | .ok top_traders =>
          if top_traders.isEmpty then []
          else if pushSome then
            [mkWalletTokenPairs top_traders (syntheticBoostedToken boosted_token src)
              boosted_token.chain_id now]
          else []
        | .error _ => []
      bs ++
        (if rest.isEmpty then []
         else if stopBSleep i then []
         else boostedBatches cfg rawTraders pushSome now src stopB stopBSleep rest (i + 1))

/-- Batches handed to the queue by the new-listing loop. -/
def newListingBatches (cfg : SystemConfig)
    (rawTraders : String → String → Except Err (List TopTrader))
    (pushSome : Bool) (now : Nat) (stopN stopNSleep : Nat → Bool) :
    List NewListingToken → Nat → List (List DiscoveredWalletToken)
  | [], _ => []
  | token :: rest, i =>
    if stopN i then []
    else
      let bs :=
        match get_top_traders_for_token cfg rawTraders token.address
            cfg.default_chain with
        | .ok top_traders =>
          if top_traders.isEmpty then []
          else if pushSome then
            [mkWalletTokenPairs top_traders (syntheticNewListingToken token)
              cfg.default_chain now]
          else []
        | .error _ => []
      bs ++
        (if rest.isEmpty then []
         else if stopNSleep i then []
         else newListingBatches cfg rawTraders pushSome now stopN stopNSleep rest (i + 1))

/-- All batches one `execute_discovery_cycle_for_chain` call hands to the
dedup queue, mirroring its control flow. -/
def chainCycleBatches (cfg : SystemConfig) (o : ChainOracles) (chain : String) :
    List (List DiscoveredWalletToken) :=
  match get_trending_tokens_for_chain cfg o.fetch1 o.fetch2 with
  | .error _ => []
  | .ok trending_tokens =>
    if trending_tokens.isEmpty then []
    else
      let b1 := trendingBatches cfg chain o.rawTraders o.push.isSome o.now
        o.stopTrend o.stopTrendSleep trending_tokens 0
      if (processTrendingTokens cfg chain o.rawTraders o.push o.now
          o.stopTrend o.stopTrendSleep trending_tokens 0 0).2 then b1
      else
        b1 ++
        (match o.gainers with
         | .ok gainers =>
           if gainers.isEmpty then []
           else if o.push.isSome then
             [mkGainerPairs gainers "ALL_TIMEFRAMES" chain o.now]
           else []
         | .error _ => []) ++
        (match o.boosted with
         | some (.ok (latest_tokens, top_tokens)) =>
           (if latest_tokens.isEmpty then []
            else boostedBatches cfg o.rawTraders o.push.isSome o.now "latest"
              o.stopBoostLatest o.stopBoostLatestSleep
              (boostedProcessedList cfg latest_tokens) 0) ++
           (if top_tokens.isEmpty then []
            else boostedBatches cfg o.rawTraders o.push.isSome o.now "top"
              o.stopBoostTop o.stopBoostTopSleep
              (boostedProcessedList cfg top_tokens) 0)
         | some (.error _) => []
         | none => []) ++
        (if cfg.new_listing_enabled then
           match o.newListings with
           | .ok new_listing_tokens =>
             if new_listing_tokens.isEmpty then []
             else newListingBatches cfg o.rawTraders o.push.isSome o.now
               o.stopNewListing o.stopNewListingSleep new_listing_tokens 0
           | .error _ => []
         else [])

/-! ### Concrete fixtures used by counterexamples and witnesses -/

/-- A trending token with the given address, symbol and 24h volume, all
other fields defaulted. -/
def mkTok (address symbol : String) (vol : Option ℤ) : TrendingToken :=
  { address := address
    symbol := symbol
    name := symbol
    decimals := none
    price := 1
    price_change_24h := none
    volume_24h := vol
    volume_change_24h := none
    liquidity := none
    fdv := none
    marketcap := none
    rank := none
    logo_uri := none
    txns_24h := none
    last_trade_unix_time := none }

/-- A boosted token on the given chain. -/
def mkBoosted (address chain_id : String) : DexScreenerBoostedToken :=
  { token_address := address, chain_id := chain_id, description := none }

/-- A trader comfortably passing the quality filter of `cfgA`. -/
def trader1 : TopTrader :=
  { owner := "W1", volume := 10000, trade := 50, win_rate := 80,
    last_trade_age_hours := 1 }

/-- A trader with an empty wallet address, as a collaborator could return. -/
def traderNoWallet : TopTrader :=
  { owner := "", volume := 10000, trade := 50, win_rate := 80,
    last_trade_age_hours := 1 }

/-- A gainer record. -/
def gain1 : GainerLoser :=
  { address := "G1", volume := 500, trade_count := 7 }

/-- A new listing record. -/
def nl1 : NewListingToken :=
  { address := "N1", symbol := "NEW1", name := "New One", decimals := 9,
    liquidity := 100, logo_uri := none, source := "raydium" }

/-- A push function that accepts every batch and reports every entry as
newly queued. -/
def lenPushFn : List DiscoveredWalletToken → Except Err Nat :=
  fun pairs => .ok pairs.length

/-- A push oracle that accepts every batch and reports every entry as
newly queued. -/
def lenPush : PushOracle := some lenPushFn

/-- Five distinct gainer records, for the 5-gainers scenario. -/
def gainers5 : List GainerLoser :=
  [{ address := "G1", volume := 1, trade_count := 1 },
   { address := "G2", volume := 1, trade_count := 1 },
   { address := "G3", volume := 1, trade_count := 1 },
   { address := "G4", volume := 1, trade_count := 1 },
   { address := "G5", volume := 1, trade_count := 1 }]

/-- A push function whose dedup queue reports exactly 3 entries as newly
queued (the rest being duplicates). -/
def push3 : List DiscoveredWalletToken → Except Err Nat := fun _ => .ok 3

/-- A small baseline configuration: one enabled chain, permissive trader
thresholds, no trending cap. -/
def cfgA : SystemConfig :=
  { enabled_chains := ["solana"]
    default_chain := "solana"
    max_trending_tokens := 0
    max_traders_per_token := 5
    new_listing_enabled := true
    max_boosted_tokens := 10
    min_capital_deployed_sol := 1
    min_total_trades := 1
    min_win_rate := 0 }

/-- Baseline oracles under which every source succeeds and every step
discovers one wallet. -/
def oracleA : ChainOracles :=
  { fetch1 := .ok [mkTok "T1" "TOK1" (some 50)]
    fetch2 := .ok []
    rawTraders := fun _ _ => .ok [trader1]
    push := lenPush
    gainers := .ok [gain1]
    boosted := some (.ok ([mkBoosted "B1" "solana"], [mkBoosted "B2" "solana"]))
    newListings := .ok [nl1]
    stopTrend := fun _ => false
    stopTrendSleep := fun _ => false
    stopBoostLatest := fun _ => false
    stopBoostLatestSleep := fun _ => false
    stopBoostTop := fun _ => false
    stopBoostTopSleep := fun _ => false
    stopNewListing := fun _ => false
    stopNewListingSleep := fun _ => false
    now := 0 }

/-- A configuration whose default chain (used for new-listing trader
lookups) is not among the enabled chains. -/
def cfg6 : SystemConfig := { cfgA with default_chain := "base" }

/-- Oracles returning a trader with an empty wallet address, no gainers
and no boosted source. -/
def oracle6 : ChainOracles :=
  { oracleA with
    rawTraders := fun _ _ => .ok [traderNoWallet]
    gainers := .ok []
    boosted := none }

/-- Decidable equality of collaborator results, for evaluating the
embedding at concrete inputs. -/
instance instDecEqExcept {ε α : Type} [DecidableEq ε] [DecidableEq α] :
    DecidableEq (Except ε α) := fun a b =>
  match a, b with
  | .ok x, .ok y =>
    if h : x = y then isTrue (by rw [h])
    else isFalse (by intro hc; cases hc; exact h rfl)
  | .error x, .error y =>
    if h : x = y then isTrue (by rw [h])
    else isFalse (by intro hc; cases hc; exact h rfl)
  | .ok _, .error _ => isFalse (by intro hc; cases hc)
  | .error _, .ok _ => isFalse (by intro hc; cases hc)

/-! ### Lemmas about the stable descending-volume sort -/

theorem optVolLe_of_not_lt {a b : Option ℤ} (h : ¬ optVolLt a b = true) :
    optVolLe b a = true := by
  cases a <;> cases b <;> simp_all [optVolLt, optVolLe] <;> omega

theorem optVolLe_of_lt {a b : Option ℤ} (h : optVolLt a b = true) :
    optVolLe a b = true := by
  cases a <;> cases b <;> simp_all [optVolLt, optVolLe] <;> omega

theorem optVolLt_ne {a b : Option ℤ} (h : optVolLt a b = true) : a ≠ b := by
  cases a <;> cases b <;> simp_all [optVolLt] <;> omega

theorem optVolLe_trans {a b c : Option ℤ} (hab : optVolLe a b = true)
    (hbc : optVolLe b c = true) : optVolLe a c = true := by
  cases a <;> cases b <;> cases c <;> simp_all [optVolLe] <;> omega

theorem mem_insertByVolDesc {x t : TrendingToken} {l : List TrendingToken} :
    x ∈ insertByVolDesc t l ↔ x = t ∨ x ∈ l := by
  induction l with
  | nil => simp [insertByVolDesc]
  | cons u us ih =>
    simp only [insertByVolDesc]
    by_cases h : optVolLt t.volume_24h u.volume_24h = true
    · rw [if_pos h]
      simp only [List.mem_cons, ih]
      tauto
    · rw [if_neg h]
      simp only [List.mem_cons]

theorem length_insertByVolDesc (t : TrendingToken) (l : List TrendingToken) :
    (insertByVolDesc t l).length = l.length + 1 := by
  induction l with
  | nil => rfl
  | cons u us ih =>
    simp only [insertByVolDesc]
    by_cases h : optVolLt t.volume_24h u.volume_24h = true
    · rw [if_pos h]
      simp [ih]
    · rw [if_neg h]
      rfl

theorem length_sortByVolDesc (l : List TrendingToken) :
    (sortByVolDesc l).length = l.length := by
  induction l with
  | nil => rfl
  | cons t ts ih => simp [sortByVolDesc, length_insertByVolDesc, ih]

theorem pairwise_insertByVolDesc {t : TrendingToken} {l : List TrendingToken}
    (h : VolSortedDesc l) : VolSortedDesc (insertByVolDesc t l) := by
  induction l with
  | nil => simp [insertByVolDesc, VolSortedDesc]
  | cons u us ih =>
    rcases (List.pairwise_cons.mp h) with ⟨hu, hus⟩
    simp only [insertByVolDesc]
    by_cases hlt : optVolLt t.volume_24h u.volume_24h = true
    · rw [if_pos hlt]
      refine List.pairwise_cons.mpr ⟨?_, ih hus⟩
      intro x hx
      rcases mem_insertByVolDesc.mp hx with rfl | hx
      · exact optVolLe_of_lt hlt
      · exact hu x hx
    · rw [if_neg hlt]
      refine List.pairwise_cons.mpr ⟨?_, h⟩
      intro x hx
      rcases List.mem_cons.mp hx with rfl | hx
      · exact optVolLe_of_not_lt hlt
      · exact optVolLe_trans (hu x hx) (optVolLe_of_not_lt hlt)

theorem sortByVolDesc_sorted (l : List TrendingToken) :
    VolSortedDesc (sortByVolDesc l) := by
  induction l with
  | nil => simp [sortByVolDesc, VolSortedDesc]
  | cons t ts ih => exact pairwise_insertByVolDesc ih

theorem filter_insertByVolDesc_eq {t : TrendingToken} {l : List TrendingToken}
    {v : Option ℤ} (ht : t.volume_24h = v) :
    (insertByVolDesc t l).filter (fun u => decide (u.volume_24h = v))
      = t :: l.filter (fun u => decide (u.volume_24h = v)) := by
  induction l with
  | nil => simp [insertByVolDesc, ht]
  | cons u us ih =>
    simp only [insertByVolDesc]
    by_cases hlt : optVolLt t.volume_24h u.volume_24h = true
    · have hne : ¬ u.volume_24h = v := fun hv => optVolLt_ne hlt (ht.trans hv.symm)
      rw [if_pos hlt, List.filter_cons, List.filter_cons]
      simp only [decide_eq_true_eq]
      rw [if_neg hne, if_neg hne, ih]
    · rw [if_neg hlt, List.filter_cons]
      simp only [decide_eq_true_eq]
      rw [if_pos ht]

theorem filter_insertByVolDesc_ne {t : TrendingToken} {l : List TrendingToken}
    {v : Option ℤ} (ht : ¬ t.volume_24h = v) :
    (insertByVolDesc t l).filter (fun u => decide (u.volume_24h = v))
      = l.filter (fun u => decide (u.volume_24h = v)) := by
  induction l with
  | nil => simp [insertByVolDesc, ht]
  | cons u us ih =>
    simp only [insertByVolDesc]
    by_cases hlt : optVolLt t.volume_24h u.volume_24h = true
    · rw [if_pos hlt, List.filter_cons, List.filter_cons]
      simp only [decide_eq_true_eq]
      by_cases hu : u.volume_24h = v
      · rw [if_pos hu, if_pos hu, ih]
      · rw [if_neg hu, if_neg hu, ih]
    · rw [if_neg hlt, List.filter_cons]
      simp only [decide_eq_true_eq]
      rw [if_neg ht]

theorem sortByVolDesc_stable (l : List TrendingToken) (v : Option ℤ) :
    (sortByVolDesc l).filter (fun u => decide (u.volume_24h = v))
      = l.filter (fun u => decide (u.volume_24h = v)) := by
  induction l with
  | nil => rfl
  | cons t ts ih =>
    simp only [sortByVolDesc]
    by_cases ht : t.volume_24h = v
    · rw [filter_insertByVolDesc_eq ht, ih, List.filter_cons]
      simp only [decide_eq_true_eq]
      rw [if_pos ht]
    · rw [filter_insertByVolDesc_ne ht, ih, List.filter_cons]
      simp only [decide_eq_true_eq]
      rw [if_neg ht]

/-! ### Claim theorems -/

/-- C8: every trending list returned by `get_trending_tokens_for_chain` —
primary path (with or without the cap) and fallback path alike — is sorted
in descending order of 24-hour volume; the sort is stable with respect to
the fetcher's output order on every equal-volume class, and it preserves
the total token count. -/
theorem c8_trending_sorted_stable (cfg : SystemConfig)
    (fetch1 fetch2 : Except Err (List TrendingToken))
    (l : List TrendingToken)
    (h : get_trending_tokens_for_chain cfg fetch1 fetch2 = .ok l) :
    VolSortedDesc l ∧
    (∀ (ts : List TrendingToken) (v : Option ℤ),
      (sortByVolDesc ts).filter (fun u => decide (u.volume_24h = v))
        = ts.filter (fun u => decide (u.volume_24h = v))) ∧
    (∀ ts : List TrendingToken, (sortByVolDesc ts).length = ts.length) := by
  refine ⟨?_, fun ts v => sortByVolDesc_stable ts v,
    fun ts => length_sortByVolDesc ts⟩
  cases fetch1 with
  | ok tokens =>
    simp only [get_trending_tokens_for_chain] at h
    by_cases hc : cfg.max_trending_tokens > 0 ∧
        (sortByVolDesc tokens).length > cfg.max_trending_tokens
    · rw [if_pos hc] at h
      injection h with h
      subst h
      exact (sortByVolDesc_sorted tokens).sublist (List.take_sublist _ _)
    · rw [if_neg hc] at h
      injection h with h
      subst h
      exact sortByVolDesc_sorted tokens
  | error e =>
    cases fetch2 with
    | ok fallback_tokens =>
      simp only [get_trending_tokens_for_chain] at h
      injection h with h
      subst h
      exact sortByVolDesc_sorted fallback_tokens
    | error e2 =>
      simp only [get_trending_tokens_for_chain] at h
      cases h

/-- C8 witness: a concrete unsorted primary fetch comes back sorted. -/
theorem c8_witness :
    get_trending_tokens_for_chain cfgA
      (.ok [mkTok "T1" "TOK1" (some 50), mkTok "T2" "TOK2" (some 60)])
      (.ok []) = .ok [mkTok "T2" "TOK2" (some 60), mkTok "T1" "TOK1" (some 50)] ∧
    VolSortedDesc [mkTok "T2" "TOK2" (some 60), mkTok "T1" "TOK1" (some 50)] :=
  ⟨by decide,
   (c8_trending_sorted_stable cfgA
     (.ok [mkTok "T1" "TOK1" (some 50), mkTok "T2" "TOK2" (some 60)])
     (.ok []) _ (by decide)).1⟩

/-- C10: the `max_trending_tokens` cap applies only on the primary path
(any successful primary fetch returns at most the cap when it is
positive), while the fallback path applies no cap: a concrete fallback
outcome returns 2 tokens under a configured maximum of 1. -/
theorem c10_fallback_uncapped :
    (∀ (cfg : SystemConfig) (fetch2 : Except Err (List TrendingToken))
       (tokens l : List TrendingToken),
       cfg.max_trending_tokens > 0 →
       get_trending_tokens_for_chain cfg (.ok tokens) fetch2 = .ok l →
       l.length ≤ cfg.max_trending_tokens) ∧
    ({ cfgA with max_trending_tokens := 1 } : SystemConfig).max_trending_tokens
      = 1 ∧
    get_trending_tokens_for_chain { cfgA with max_trending_tokens := 1 }
      (.error "primary failed")
      (.ok [mkTok "T1" "TOK1" (some 50), mkTok "T2" "TOK2" (some 60)])
      = .ok [mkTok "T2" "TOK2" (some 60), mkTok "T1" "TOK1" (some 50)] := by
  refine ⟨?_, rfl, by decide⟩
  intro cfg fetch2 tokens l hmax h
  simp only [get_trending_tokens_for_chain] at h
  by_cases hc : cfg.max_trending_tokens > 0 ∧
      (sortByVolDesc tokens).length > cfg.max_trending_tokens
  · rw [if_pos hc] at h
    injection h with h
    subst h
    rw [List.length_take]
    omega
  · rw [if_neg hc] at h
    injection h with h
    subst h
    rcases Decidable.not_and_iff_or_not.mp hc with hc | hc
    · exact absurd hmax hc
    · omega

/-- C10 witness: on a successful primary fetch the cap of 1 truncates a
2-token list to length at most 1. -/
theorem c10_witness :
    ({ cfgA with max_trending_tokens := 1 } : SystemConfig).max_trending_tokens > 0 ∧
    get_trending_tokens_for_chain { cfgA with max_trending_tokens := 1 }
      (.ok [mkTok "T1" "TOK1" (some 50), mkTok "T2" "TOK2" (some 60)])
      (.ok []) = .ok [mkTok "T2" "TOK2" (some 60)] ∧
    ([mkTok "T2" "TOK2" (some 60)] : List TrendingToken).length ≤ 1 :=
  ⟨by decide, by decide,
   c10_fallback_uncapped.1 { cfgA with max_trending_tokens := 1 } (.ok [])
     [mkTok "T1" "TOK1" (some 50), mkTok "T2" "TOK2" (some 60)]
     [mkTok "T2" "TOK2" (some 60)] (by decide) (by decide)⟩

/-- C9: on a successful raw fetch, `get_top_traders_for_token` returns
exactly the trader filter applied with capital threshold
`min_capital_deployed_sol * 230`, trade threshold `min_total_trades`, the
configured win rate and a 24-hour recency window, truncated to
`max_traders_per_token`; hence the result never exceeds the per-token
cap. -/
theorem c9_capital_threshold_and_cap (cfg : SystemConfig)
    (rawTraders : String → String → Except Err (List TopTrader))
    (token_address chain : String) (traders : List TopTrader)
    (h : rawTraders token_address chain = .ok traders) :
    get_top_traders_for_token cfg rawTraders token_address chain
      = .ok ((filter_top_traders traders (cfg.min_capital_deployed_sol * 230)
          cfg.min_total_trades (some cfg.min_win_rate) (some 24)).take
          cfg.max_traders_per_token) ∧
    ((filter_top_traders traders (cfg.min_capital_deployed_sol * 230)
        cfg.min_total_trades (some cfg.min_win_rate) (some 24)).take
        cfg.max_traders_per_token).length ≤ cfg.max_traders_per_token := by
  constructor
  · simp only [get_top_traders_for_token, h]
    by_cases hc : (filter_top_traders traders (cfg.min_capital_deployed_sol * 230)
        cfg.min_total_trades (some cfg.min_win_rate) (some 24)).length
        > cfg.max_traders_per_token
    · rw [if_pos hc]
    · rw [if_neg hc, List.take_of_length_le (Nat.le_of_not_lt hc)]
  · rw [List.length_take]
    omega

/-- C9 witness: at a concrete fetch the threshold 230 and the cap are
applied. -/
theorem c9_witness :
    (fun (_ : String) (_ : String) =>
      Except.ok (ε := Err) [trader1]) "T1" "solana" = .ok [trader1] ∧
    get_top_traders_for_token cfgA
      (fun _ _ => .ok [trader1]) "T1" "solana"
      = .ok ((filter_top_traders [trader1] (cfgA.min_capital_deployed_sol * 230)
          cfgA.min_total_trades (some cfgA.min_win_rate) (some 24)).take
          cfgA.max_traders_per_token) :=
  ⟨rfl, (c9_capital_threshold_and_cap cfgA (fun _ _ => .ok [trader1])
    "T1" "solana" [trader1] rfl).1⟩

/-- C2 counterexample: with an empty trending list but a gainer source
holding one record that the queue would accept (the same publish call in
isolation queues 1), the chain executor returns 0 — the gainer, boosted
and new-listing steps are all skipped, so their counts are not included,
contrary to the claim. -/
theorem c2_counterexample :
    execute_discovery_cycle_for_chain cfgA { oracleA with fetch1 := .ok [] }
      "solana" = .ok 0 ∧
    push_gainers_to_queue [gain1] "ALL_TIMEFRAMES" "solana" lenPush 0
      = .ok 1 :=
  ⟨by decide, by decide⟩

/-- C2 (amended): when the trending fetch returns an empty list, the chain
executor returns 0 immediately, skipping the gainer, boosted-token and
new-listing steps as well as the per-token processing. -/
theorem c2_empty_trending_returns_zero (cfg : SystemConfig)
    (o : ChainOracles) (chain : String)
    (h : o.fetch1 = .ok ([] : List TrendingToken)) :
    execute_discovery_cycle_for_chain cfg o chain = .ok 0 := by
  simp only [execute_discovery_cycle_for_chain, get_trending_tokens_for_chain,
    h, sortByVolDesc]
  simp

/-- C2 witness: the amended statement at the concrete fixture. -/
theorem c2_witness :
    ({ oracleA with fetch1 := .ok [] } : ChainOracles).fetch1
      = .ok ([] : List TrendingToken) ∧
    execute_discovery_cycle_for_chain cfgA { oracleA with fetch1 := .ok [] }
      "solana" = .ok 0 :=
  ⟨rfl, c2_empty_trending_returns_zero cfgA { oracleA with fetch1 := .ok [] }
    "solana" rfl⟩

/-- C3 counterexample: when the queue collaborator is reachable but its
push fails, the publisher returns the error to its caller instead of
returning zero, contrary to the claim that an unreachable queue yields
zero and is never raised. -/
theorem c3_counterexample :
    push_wallet_token_pairs_to_queue [trader1] (mkTok "T1" "TOK1" (some 50))
      "solana" (some (fun _ => .error "queue unreachable")) 0
      = .error "queue unreachable" :=
  by decide

/-- C3 (amended): when the Redis client is not configured the publisher
returns 0 without error; when the configured push succeeds the newly
queued count it reports is returned unchanged and, as long as that count
does not exceed the batch, newly-queued plus reported-duplicates equals
the input length; a failing push, however, propagates its error to the
caller (the call sites catch and log it). -/
theorem c3_publish_contract (traders : List TopTrader) (token : TrendingToken)
    (chain : String) (pushFn : List DiscoveredWalletToken → Except Err Nat)
    (now n : Nat)
    (hne : traders ≠ [])
    (hok : pushFn (mkWalletTokenPairs traders token chain now) = .ok n)
    (hle : n ≤ traders.length) :
    push_wallet_token_pairs_to_queue traders token chain none now = .ok 0 ∧
    push_wallet_token_pairs_to_queue traders token chain (some pushFn) now
      = .ok n ∧
    n + dedupSkippedCount (mkWalletTokenPairs traders token chain now).length n
      = traders.length := by
  have hlen : (mkWalletTokenPairs traders token chain now).length
      = traders.length := by
    simp [mkWalletTokenPairs]
  have hE : traders.isEmpty = false := by
    cases traders with
    | nil => exact absurd rfl hne
    | cons a l => rfl
  refine ⟨?_, ?_, ?_⟩
  · simp [push_wallet_token_pairs_to_queue, hE]
  · simp [push_wallet_token_pairs_to_queue, hE, hok]
  · rw [dedupSkippedCount, hlen]
    omega

/-- C3 witness: the amended contract at a concrete one-trader batch. -/
theorem c3_witness :
    ([trader1] : List TopTrader) ≠ [] ∧
    push_wallet_token_pairs_to_queue [trader1] (mkTok "T1" "TOK1" (some 50))
      "solana" (some lenPushFn) 0 = .ok 1 :=
  ⟨by decide,
   (c3_publish_contract [trader1] (mkTok "T1" "TOK1" (some 50)) "solana"
     lenPushFn 0 1 (by decide) (by decide) (by decide)).2.1⟩

/-- C7: each gainer record is converted directly into one observation (one
pair per gainer, in order, no trader fetch involved) whose wallet is the
gainer's own address, whose token address is the synthetic `"ALL_TOKENS"`
placeholder and whose symbol tags it as a gainer record; the publisher
returns exactly the newly-queued count the dedup queue reports, and
newly-queued plus reported-duplicates equals the number of gainers. -/
theorem c7_gainers_direct (gainers : List GainerLoser)
    (timeframe chain : String)
    (pushFn : List DiscoveredWalletToken → Except Err Nat) (now n : Nat)
    (hne : gainers ≠ [])
    (hok : pushFn (mkGainerPairs gainers timeframe chain now) = .ok n) :
    push_gainers_to_queue gainers timeframe chain (some pushFn) now = .ok n ∧
    (mkGainerPairs gainers timeframe chain now).length = gainers.length ∧
    (∀ p ∈ mkGainerPairs gainers timeframe chain now,
      p.token_address = "ALL_TOKENS" ∧
      p.token_symbol = "GAINER_" ++ timeframe.toUpper ∧
      p.wallet_address ∈ gainers.map GainerLoser.address) ∧
    (n ≤ gainers.length →
      n + dedupSkippedCount (mkGainerPairs gainers timeframe chain now).length n
        = gainers.length) := by
  have hE : gainers.isEmpty = false := by
    cases gainers with
    | nil => exact absurd rfl hne
    | cons a l => rfl
  have hlen : (mkGainerPairs gainers timeframe chain now).length
      = gainers.length := by
    simp [mkGainerPairs]
  refine ⟨?_, hlen, ?_, ?_⟩
  · simp [push_gainers_to_queue, hE, hok]
  · intro p hp
    rcases List.mem_map.mp hp with ⟨g, hg, rfl⟩
    exact ⟨rfl, rfl, List.mem_map.mpr ⟨g, hg, rfl⟩⟩
  · intro hle
    rw [dedupSkippedCount, hlen]
    omega

/-- C7 witness: 5 gainers with the queue reporting 3 newly queued yields a
reported count of 3 and 2 skipped duplicates. -/
theorem c7_witness :
    push_gainers_to_queue gainers5 "ALL_TIMEFRAMES" "solana" (some push3) 0
      = .ok 3 ∧
    dedupSkippedCount (mkGainerPairs gainers5 "ALL_TIMEFRAMES" "solana" 0).length 3
      = 2 :=
  ⟨(c7_gainers_direct gainers5 "ALL_TIMEFRAMES" "solana" push3 0 3
      (by decide) (by decide)).1,
   by decide⟩

/-- C1 counterexample: when the trending fetch fails (primary and
fallback), the chain executor returns that error rather than a count: the
trending step's fetch failure is not caught, contrary to the claim that
all four source steps catch their fetch failures. -/
theorem c1_counterexample :
    execute_discovery_cycle_for_chain cfgA
      { oracleA with
          fetch1 := .error "birdeye down"
          fetch2 := .error "birdeye down" } "solana"
      = .error "birdeye down" :=
  by decide

/-- C1 (amended): once the trending fetch succeeds, the chain executor
always returns a count: failures of the gainer, boosted-token and
new-listing steps are caught and contribute zero. In particular a total
boosted-token fetch failure leaves the result identical to running with
the boosted source disabled, the other steps still executing. The trending
fetch itself, however, propagates its error (the one per-source hard
error). -/
theorem c1_source_failures_isolated (cfg : SystemConfig) (o : ChainOracles)
    (chain : String) (ts : List TrendingToken) (e : Err)
    (h : get_trending_tokens_for_chain cfg o.fetch1 o.fetch2 = .ok ts) :
    (∃ n, execute_discovery_cycle_for_chain cfg o chain = .ok n) ∧
    execute_discovery_cycle_for_chain cfg
        { o with boosted := some (.error e) } chain
      = execute_discovery_cycle_for_chain cfg { o with boosted := none }
          chain := by
  rcases o with ⟨f1, f2, rt, pu, ga, bo, nls, s1, s2, s3, s4, s5, s6, s7, s8, now⟩
  constructor
  · simp only [execute_discovery_cycle_for_chain, h]
    by_cases hts : ts.isEmpty
    · simp [hts]
    · simp only [hts, Bool.false_eq_true, if_false]
      cases hp : processTrendingTokens cfg chain rt pu now s1 s2 ts 0 0 with
      | mk acc b =>
        cases b
        · exact ⟨_, rfl⟩
        · exact ⟨_, rfl⟩
  · simp only [execute_discovery_cycle_for_chain, h]

/-- C1 witness: the amended statement at the baseline fixture. -/
theorem c1_witness :
    get_trending_tokens_for_chain cfgA oracleA.fetch1 oracleA.fetch2
      = .ok [mkTok "T1" "TOK1" (some 50)] ∧
    (∃ n, execute_discovery_cycle_for_chain cfgA oracleA "solana" = .ok n) :=
  ⟨by decide,
   (c1_source_failures_isolated cfgA oracleA "solana"
     [mkTok "T1" "TOK1" (some 50)] "boosted fetch failed" (by decide)).1⟩

/-- C4 counterexample: a propagated chain-executor error returns with the
running flag still true — the reset at the end of the cycle is skipped by
the error propagation — contrary to the claim that the flag is false on
every way the call returns. -/
theorem c4_counterexample :
    execute_discovery_cycle cfgA
      (fun _ => { oracleA with
          fetch1 := .error "chain failed"
          fetch2 := .error "chain failed" })
      (fun _ => false)
      = (.error "chain failed", true) :=
  by decide

/-- C4 (amended): on normal completion and on early stop between chains —
every `.ok` return — the running flag is false when
`execute_discovery_cycle` returns; only a propagated chain-executor error
can leave it true. -/
theorem c4_flag_false_on_ok (cfg : SystemConfig)
    (oraclesFor : String → ChainOracles) (stop : Nat → Bool) (n : Nat)
    (h : (execute_discovery_cycle cfg oraclesFor stop).1 = .ok n) :
    (execute_discovery_cycle cfg oraclesFor stop).2 = false := by
  have key : ∀ (l : List String) (k acc : Nat),
      (cycleChainsLoop cfg oraclesFor stop l k acc).1 = .ok n →
      (cycleChainsLoop cfg oraclesFor stop l k acc).2 = false := by
    intro l
    induction l with
    | nil => intro k acc _; rfl
    | cons c rest ih =>
      intro k acc hk
      simp only [cycleChainsLoop] at hk ⊢
      cases hx : execute_discovery_cycle_for_chain cfg (oraclesFor c) c with
      | error e =>
        rw [hx] at hk
        simp at hk
      | ok m =>
        rw [hx] at hk
        by_cases hs : stop k = true
        · simp [hs]
        · simp only [hs, Bool.false_eq_true, if_false] at hk ⊢
          exact ih (k + 1) (acc + m) hk
  exact key cfg.enabled_chains 0 0 h

/-- C4 witness: on a fully successful cycle the flag is false at return. -/
theorem c4_witness :
    (execute_discovery_cycle cfgA (fun _ => oracleA) (fun _ => false)).1
      = .ok 5 ∧
    (execute_discovery_cycle cfgA (fun _ => oracleA) (fun _ => false)).2
      = false :=
  ⟨by decide,
   c4_flag_false_on_ok cfgA (fun _ => oracleA) (fun _ => false) 5 (by decide)⟩

/-- C5 counterexample: with `max_boosted_tokens = 1`, a latest list and a
top list of one enabled-chain token each are both processed in full — each
`process_boosted_tokens` call caps its own list, so the combined list
before per-token processing holds 2 tokens, exceeding the configured
maximum of 1. -/
theorem c5_counterexample :
    ({ cfgA with max_boosted_tokens := 1 } : SystemConfig).max_boosted_tokens
      = 1 ∧
    (boostedProcessedList { cfgA with max_boosted_tokens := 1 }
        [mkBoosted "B1" "solana"] ++
      boostedProcessedList { cfgA with max_boosted_tokens := 1 }
        [mkBoosted "B2" "solana"]).length = 2 ∧
    process_boosted_tokens { cfgA with max_boosted_tokens := 1 }
      oracleA.rawTraders lenPush 0 [mkBoosted "B1" "solana"] "latest"
      (fun _ => false) (fun _ => false) = .ok 1 ∧
    process_boosted_tokens { cfgA with max_boosted_tokens := 1 }
      oracleA.rawTraders lenPush 0 [mkBoosted "B2" "solana"] "top"
      (fun _ => false) (fun _ => false) = .ok 1 :=
  ⟨rfl, by decide, by decide, by decide⟩

/-- C5 (amended): each of the latest and top boosted lists is
independently filtered to enabled chains and independently capped at
`max_boosted_tokens` before per-token processing, so each processed list
respects the cap, every processed token's chain is enabled, and the
combined list holds at most twice the configured maximum. -/
theorem c5_boosted_cap_per_call (cfg : SystemConfig)
    (latest_tokens top_tokens : List DexScreenerBoostedToken) :
    (boostedProcessedList cfg latest_tokens).length ≤ cfg.max_boosted_tokens ∧
    (boostedProcessedList cfg top_tokens).length ≤ cfg.max_boosted_tokens ∧
    (boostedProcessedList cfg latest_tokens ++
      boostedProcessedList cfg top_tokens).length
      ≤ 2 * cfg.max_boosted_tokens ∧
    ∀ t ∈ boostedProcessedList cfg latest_tokens ++
        boostedProcessedList cfg top_tokens,
      cfg.enabled_chains.contains t.chain_id = true := by
  have hlen : ∀ l : List DexScreenerBoostedToken,
      (boostedProcessedList cfg l).length ≤ cfg.max_boosted_tokens := by
    intro l
    simp only [boostedProcessedList]
    by_cases hc : (l.filter
        (fun token => cfg.enabled_chains.contains token.chain_id)).length
        > cfg.max_boosted_tokens
    · rw [if_pos hc, List.length_take]
      omega
    · rw [if_neg hc]
      omega
  have hmem : ∀ (l : List DexScreenerBoostedToken),
      ∀ t ∈ boostedProcessedList cfg l,
      cfg.enabled_chains.contains t.chain_id = true := by
    intro l t ht
    simp only [boostedProcessedList] at ht
    by_cases hc : (l.filter
        (fun token => cfg.enabled_chains.contains token.chain_id)).length
        > cfg.max_boosted_tokens
    · rw [if_pos hc] at ht
      exact (List.mem_filter.mp (List.take_subset _ _ ht)).2
    · rw [if_neg hc] at ht
      exact (List.mem_filter.mp ht).2
  refine ⟨hlen latest_tokens, hlen top_tokens, ?_, ?_⟩
  · rw [List.length_append]
    have h1 := hlen latest_tokens
    have h2 := hlen top_tokens
    omega
  · intro t ht
    rcases List.mem_append.mp ht with ht | ht
    · exact hmem latest_tokens t ht
    · exact hmem top_tokens t ht

/-! ### Queue-invariant lemmas (C6) -/

theorem mem_of_get_top_traders {cfg : SystemConfig}
    {rawTraders : String → String → Except Err (List TopTrader)}
    {a c : String} {ts : List TopTrader}
    (h : get_top_traders_for_token cfg rawTraders a c = .ok ts) :
    ∀ t ∈ ts, ∃ ts0, rawTraders a c = .ok ts0 ∧ t ∈ ts0 := by
  intro t ht
  cases hr : rawTraders a c with
  | error e =>
    simp only [get_top_traders_for_token, hr] at h
    cases h
  | ok traders =>
    refine ⟨traders, rfl, ?_⟩
    simp only [get_top_traders_for_token, hr] at h
    by_cases hc : (filter_top_traders traders (cfg.min_capital_deployed_sol * 230)
        cfg.min_total_trades (some cfg.min_win_rate) (some 24)).length
        > cfg.max_traders_per_token
    · rw [if_pos hc] at h
      injection h with h
      subst h
      exact List.mem_of_mem_filter (List.take_subset _ _ ht)
    · rw [if_neg hc] at h
      injection h with h
      subst h
      exact List.mem_of_mem_filter ht

theorem mem_mkWalletTokenPairs {obs : DiscoveredWalletToken}
    {traders : List TopTrader} {token : TrendingToken} {chain : String}
    {now : Nat} (h : obs ∈ mkWalletTokenPairs traders token chain now) :
    obs.chain = chain ∧ ∃ tr ∈ traders, obs.wallet_address = tr.owner := by
  rcases List.mem_map.mp h with ⟨tr, htr, rfl⟩
  exact ⟨rfl, tr, htr, rfl⟩

theorem mem_mkGainerPairs {obs : DiscoveredWalletToken}
    {gainers : List GainerLoser} {timeframe chain : String} {now : Nat}
    (h : obs ∈ mkGainerPairs gainers timeframe chain now) :
    obs.chain = chain ∧ ∃ g ∈ gainers, obs.wallet_address = g.address := by
  rcases List.mem_map.mp h with ⟨g, hg, rfl⟩
  exact ⟨rfl, g, hg, rfl⟩

theorem boostedProcessedList_chains (cfg : SystemConfig)
    (l : List DexScreenerBoostedToken) :
    ∀ t ∈ boostedProcessedList cfg l,
      cfg.enabled_chains.contains t.chain_id = true := by
  intro t ht
  simp only [boostedProcessedList] at ht
  by_cases hc : (l.filter
      (fun token => cfg.enabled_chains.contains token.chain_id)).length
      > cfg.max_boosted_tokens
  · rw [if_pos hc] at ht
    exact (List.mem_filter.mp (List.take_subset _ _ ht)).2
  · rw [if_neg hc] at ht
    exact (List.mem_filter.mp ht).2

theorem trendingBatches_inv (cfg : SystemConfig) (chain : String)
    (rawTraders : String → String → Except Err (List TopTrader))
    (pushSome : Bool) (now : Nat) (stopT stopTSleep : Nat → Bool)
    (hW : ∀ a c ts, rawTraders a c = .ok ts → ∀ t ∈ ts, t.owner ≠ "") :
    ∀ (l : List TrendingToken) (i : Nat),
      ∀ b ∈ trendingBatches cfg chain rawTraders pushSome now stopT stopTSleep l i,
      ∀ obs ∈ b, obs.chain = chain ∧ obs.wallet_address ≠ "" := by
  intro l
  induction l with
  | nil =>
    intro i b hb
    simp [trendingBatches] at hb
  | cons token rest ih =>
    intro i b hb
    simp only [trendingBatches] at hb
    by_cases hs : stopT i = true
    · rw [if_pos hs] at hb
      simp at hb
    · rw [if_neg hs] at hb
      rcases List.mem_append.mp hb with hb | hb
      · cases hg : get_top_traders_for_token cfg rawTraders token.address chain with
        | error e =>
          rw [hg] at hb
          simp at hb
        | ok tt =>
          rw [hg] at hb
          dsimp only at hb
          by_cases he : tt.isEmpty = true
          · rw [if_pos he] at hb
            simp at hb
          · rw [if_neg he] at hb
            by_cases hp : pushSome = true
            · rw [if_pos hp] at hb
              rcases List.mem_singleton.mp hb with rfl
              intro obs hobs
              rcases mem_mkWalletTokenPairs hobs with ⟨hchain, tr, htr, howner⟩
              rcases mem_of_get_top_traders hg tr htr with ⟨ts0, hts0, htr0⟩
              refine ⟨hchain, ?_⟩
              rw [howner]
              exact hW _ _ _ hts0 tr htr0
            · rw [if_neg hp] at hb
              simp at hb
      · by_cases hre : rest.isEmpty = true
        · rw [if_pos hre] at hb
          simp at hb
        · rw [if_neg hre] at hb
          by_cases hsl : stopTSleep i = true
          · rw [if_pos hsl] at hb
            simp at hb
          · rw [if_neg hsl] at hb
            exact ih (i + 1) b hb

theorem boostedBatches_inv (cfg : SystemConfig)
    (rawTraders : String → String → Except Err (List TopTrader))
    (pushSome : Bool) (now : Nat) (src : String) (stopB stopBSleep : Nat → Bool)
    (hW : ∀ a c ts, rawTraders a c = .ok ts → ∀ t ∈ ts, t.owner ≠ "") :
    ∀ (l : List DexScreenerBoostedToken) (i : Nat),
      ∀ b ∈ boostedBatches cfg rawTraders pushSome now src stopB stopBSleep l i,
      ∀ obs ∈ b,
        (∃ bt ∈ l, obs.chain = bt.chain_id) ∧ obs.wallet_address ≠ "" := by
  intro l
  induction l with
  | nil =>
    intro i b hb
    simp [boostedBatches] at hb
  | cons boosted_token rest ih =>
    intro i b hb
    simp only [boostedBatches] at hb
    by_cases hs : stopB i = true
    · rw [if_pos hs] at hb
      simp at hb
    · rw [if_neg hs] at hb
      rcases List.mem_append.mp hb with hb | hb
      · cases hg : get_top_traders_for_token cfg rawTraders
            boosted_token.token_address boosted_token.chain_id with
        | error e =>
          rw [hg] at hb
          simp at hb
        | ok tt =>
          rw [hg] at hb
          dsimp only at hb
          by_cases he : tt.isEmpty = true
          · rw [if_pos he] at hb
            simp at hb
          · rw [if_neg he] at hb
            by_cases hp : pushSome = true
            · rw [if_pos hp] at hb
              rcases List.mem_singleton.mp hb with rfl
              intro obs hobs
              rcases mem_mkWalletTokenPairs hobs with ⟨hchain, tr, htr, howner⟩
              rcases mem_of_get_top_traders hg tr htr with ⟨ts0, hts0, htr0⟩
              refine ⟨⟨boosted_token, List.mem_cons_self _ _, hchain⟩, ?_⟩
              rw [howner]
              exact hW _ _ _ hts0 tr htr0
            · rw [if_neg hp] at hb
              simp at hb
      · by_cases hre : rest.isEmpty = true
        · rw [if_pos hre] at hb
          simp at hb
        · rw [if_neg hre] at hb
          by_cases hsl : stopBSleep i = true
          · rw [if_pos hsl] at hb
            simp at hb
          · rw [if_neg hsl] at hb
            intro obs hobs
            rcases ih (i + 1) b hb obs hobs with ⟨⟨bt, hbt, hchain⟩, hwna⟩
            exact ⟨⟨bt, List.mem_cons_of_mem _ hbt, hchain⟩, hwna⟩

theorem newListingBatches_inv (cfg : SystemConfig)
    (rawTraders : String → String → Except Err (List TopTrader))
    (pushSome : Bool) (now : Nat) (stopN stopNSleep : Nat → Bool)
    (hW : ∀ a c ts, rawTraders a c = .ok ts → ∀ t ∈ ts, t.owner ≠ "") :
    ∀ (l : List NewListingToken) (i : Nat),
      ∀ b ∈ newListingBatches cfg rawTraders pushSome now stopN stopNSleep l i,
      ∀ obs ∈ b, obs.chain = cfg.default_chain ∧ obs.wallet_address ≠ "" := by
  intro l
  induction l with
  | nil =>
    intro i b hb
    simp [newListingBatches] at hb
  | cons token rest ih =>
    intro i b hb
    simp only [newListingBatches] at hb
    by_cases hs : stopN i = true
    · rw [if_pos hs] at hb
      simp at hb
    · rw [if_neg hs] at hb
      rcases List.mem_append.mp hb with hb | hb
      · cases hg : get_top_traders_for_token cfg rawTraders token.address
            cfg.default_chain with
        | error e =>
          rw [hg] at hb
          simp at hb
        | ok tt =>
          rw [hg] at hb
          dsimp only at hb
          by_cases he : tt.isEmpty = true
          · rw [if_pos he] at hb
            simp at hb
          · rw [if_neg he] at hb
            by_cases hp : pushSome = true
            · rw [if_pos hp] at hb
              rcases List.mem_singleton.mp hb with rfl
              intro obs hobs
              rcases mem_mkWalletTokenPairs hobs with ⟨hchain, tr, htr, howner⟩
              rcases mem_of_get_top_traders hg tr htr with ⟨ts0, hts0, htr0⟩
              refine ⟨hchain, ?_⟩
              rw [howner]
              exact hW _ _ _ hts0 tr htr0
            · rw [if_neg hp] at hb
              simp at hb
      · by_cases hre : rest.isEmpty = true
        · rw [if_pos hre] at hb
          simp at hb
        · rw [if_neg hre] at hb
          by_cases hsl : stopNSleep i = true
          · rw [if_pos hsl] at hb
            simp at hb
          · rw [if_neg hsl] at hb
            exact ih (i + 1) b hb

/-- C6 counterexample: with an enabled-chain list of `["solana"]` and
default chain `"base"`, a trader record with an empty wallet address
flows into a queued batch unvalidated, and the new-listing step queues
observations on the default chain `"base"`, which is not an enabled
chain — refuting both halves of the claimed invariant. -/
theorem c6_counterexample :
    chainCycleBatches cfg6 oracle6 "solana" =
      [[{ wallet_address := "", chain := "solana", token_address := "T1",
          token_symbol := "TOK1", trader_volume_usd := 10000,
          trader_trades := 50, discovered_at := 0 }],
       [{ wallet_address := "", chain := "base", token_address := "N1",
          token_symbol := "NEW1", trader_volume_usd := 10000,
          trader_trades := 50, discovered_at := 0 }]] ∧
    cfg6.enabled_chains.contains "base" = false :=
  ⟨by decide, by decide⟩

/-- C6 (amended): provided the trader and gainer collaborators only return
non-empty wallet addresses, every enabled chain id is non-empty, and the
configured default chain is itself one of the enabled chains, every
observation in every batch the chain executor hands to the dedup queue
carries a non-empty wallet address and a non-empty chain id that is one of
the enabled chains (boosted observations use the token's own chain id,
already filtered to enabled chains; new-listing observations use the
default chain). Without those provisos the invariant fails. -/
theorem c6_queue_observation_invariant (cfg : SystemConfig) (o : ChainOracles)
    (chain : String)
    (hchain : chain ∈ cfg.enabled_chains)
    (hdefault : cfg.default_chain ∈ cfg.enabled_chains)
    (hnonempty : ∀ c ∈ cfg.enabled_chains, c ≠ "")
    (hW : ∀ a c ts, o.rawTraders a c = .ok ts → ∀ t ∈ ts, t.owner ≠ "")
    (hG : ∀ gs, o.gainers = .ok gs → ∀ g ∈ gs, g.address ≠ "") :
    ∀ b ∈ chainCycleBatches cfg o chain, ∀ obs ∈ b,
      obs.wallet_address ≠ "" ∧ obs.chain ≠ "" ∧
      obs.chain ∈ cfg.enabled_chains := by
  rcases o with ⟨f1, f2, rt, pu, ga, bo, nls, s1, s2, s3, s4, s5, s6, s7, s8, now⟩
  intro b hb obs hobs
  simp only [chainCycleBatches] at hb
  cases hg : get_trending_tokens_for_chain cfg f1 f2 with
  | error e =>
    rw [hg] at hb
    simp at hb
  | ok trending =>
    rw [hg] at hb
    dsimp only at hb
    by_cases hemp : trending.isEmpty = true
    · rw [if_pos hemp] at hb
      simp at hb
    · rw [if_neg hemp] at hb
      have htrend : b ∈ trendingBatches cfg chain rt pu.isSome now s1 s2
          trending 0 →
          obs.wallet_address ≠ "" ∧ obs.chain ≠ "" ∧
          obs.chain ∈ cfg.enabled_chains := by
        intro hb2
        rcases trendingBatches_inv cfg chain rt pu.isSome now s1 s2 hW
          trending 0 b hb2 obs hobs with ⟨hc, hwna⟩
        refine ⟨hwna, ?_, ?_⟩
        · rw [hc]
          exact hnonempty chain hchain
        · rw [hc]
          exact hchain
      by_cases hearly : (processTrendingTokens cfg chain rt pu now s1 s2
          trending 0 0).2 = true
      · rw [if_pos hearly] at hb
        exact htrend hb
      · rw [if_neg hearly] at hb
        rcases List.mem_append.mp hb with hb | hbN
        · rcases List.mem_append.mp hb with hb | hbB
          · rcases List.mem_append.mp hb with hb1 | hbG
            · exact htrend hb1
            · cases ga with
              | error e => simp at hbG
              | ok gs =>
                dsimp only at hbG
                by_cases hge : gs.isEmpty = true
                · rw [if_pos hge] at hbG
                  simp at hbG
                · rw [if_neg hge] at hbG
                  by_cases hpu : pu.isSome = true
                  · rw [if_pos hpu] at hbG
                    rcases List.mem_singleton.mp hbG with rfl
                    rcases mem_mkGainerPairs hobs with ⟨hc, g, hgmem, hwa⟩
                    refine ⟨?_, ?_, ?_⟩
                    · rw [hwa]
                      exact hG gs rfl g hgmem
                    · rw [hc]
                      exact hnonempty chain hchain
                    · rw [hc]
                      exact hchain
                  · rw [if_neg hpu] at hbG
                    simp at hbG
          · cases bo with
            | none => simp at hbB
            | some r =>
              cases r with
              | error e => simp at hbB
              | ok pr =>
                rcases pr with ⟨lt, tp⟩
                dsimp only at hbB
                have hside : ∀ (src : String) (sb sbs : Nat → Bool)
                    (l : List DexScreenerBoostedToken),
                    b ∈ boostedBatches cfg rt pu.isSome now src sb sbs
                      (boostedProcessedList cfg l) 0 →
                    obs.wallet_address ≠ "" ∧ obs.chain ≠ "" ∧
                    obs.chain ∈ cfg.enabled_chains := by
                  intro src sb sbs l hmem
                  rcases boostedBatches_inv cfg rt pu.isSome now src sb sbs hW
                      (boostedProcessedList cfg l) 0 b hmem obs hobs
                    with ⟨⟨bt, hbt, hc⟩, hwna⟩
                  have hcont := boostedProcessedList_chains cfg l bt hbt
                  have hmem2 : bt.chain_id ∈ cfg.enabled_chains :=
                    List.mem_of_elem_eq_true hcont
                  refine ⟨hwna, ?_, ?_⟩
                  · rw [hc]
                    exact hnonempty _ hmem2
                  · rw [hc]
                    exact hmem2
                rcases List.mem_append.mp hbB with hbL | hbT
                · by_cases hle : lt.isEmpty = true
                  · rw [if_pos hle] at hbL
                    simp at hbL
                  · rw [if_neg hle] at hbL
                    exact hside "latest" s3 s4 lt hbL
                · by_cases hte : tp.isEmpty = true
                  · rw [if_pos hte] at hbT
                    simp at hbT
                  · rw [if_neg hte] at hbT
                    exact hside "top" s5 s6 tp hbT
        · by_cases hnle : cfg.new_listing_enabled = true
          · rw [if_pos hnle] at hbN
            cases nls with
            | error e => simp at hbN
            | ok lst =>
              dsimp only at hbN
              by_cases hlste : lst.isEmpty = true
              · rw [if_pos hlste] at hbN
                simp at hbN
              · rw [if_neg hlste] at hbN
                rcases newListingBatches_inv cfg rt pu.isSome now s7 s8 hW
                  lst 0 b hbN obs hobs with ⟨hc, hwna⟩
                refine ⟨hwna, ?_, ?_⟩
                · rw [hc]
                  exact hnonempty _ hdefault
                · rw [hc]
                  exact hdefault
          · rw [if_neg hnle] at hbN
            simp at hbN

/-- C6 witness: the amended invariant at the baseline fixture, with its
provisos discharged. -/
theorem c6_witness :
    ("solana" ∈ cfgA.enabled_chains) ∧
    (∀ b ∈ chainCycleBatches cfgA oracleA "solana", ∀ obs ∈ b,
      obs.wallet_address ≠ "" ∧ obs.chain ≠ "" ∧
      obs.chain ∈ cfgA.enabled_chains) := by
  refine ⟨by decide, c6_queue_observation_invariant cfgA oracleA "solana"
    (by decide) (by decide) (by decide) ?_ ?_⟩
  · intro a c ts h t ht
    simp only [oracleA] at h
    injection h with h
    subst h
    rcases List.mem_singleton.mp ht with rfl
    decide
  · intro gs h g hg
    simp only [oracleA] at h
    injection h with h
    subst h
    rcases List.mem_singleton.mp hg with rfl
    decide

end BirdEyeOrch
